import Mathlib

/-!
Shallow embedding of the agent lifecycle, chat session and evaluation
subsystems of the agno-agent-chat-app repository, together with proofs of
the behavioural properties stated about them.

The definitions mirror the TypeScript source:
* `src/hooks/useChat.ts` (useAgents: saveDraft / discardDraft /
  publishDraft / deleteAgent; useChat: updateSessionMessages,
  handleEditMessage, handleDeleteMessage, handleFeedback),
* `src/services/evaluationService.ts` (evaluateTestCase),
* `src/hooks/useEvaluation.ts` (runSuite).

Timestamps (`Date.now()`) are passed in explicitly as `Nat` arguments, the
remote backend and the JSON parser appear as explicit environment
parameters, and JavaScript falsiness of a string is rendered as equality
with the empty string.
-/

namespace AgnoApp

/-- A recorded prompt-history snapshot (`PromptVersion` in `types.ts`). -/
structure PromptVersion where
  version : Nat
  timestamp : Nat
  systemInstruction : String
  changeLog : String
  author : String
deriving Repr, DecidableEq

/-- The draft overlay held in `draftConfig`: a partial record of the three
draft-editable fields; `none` means the field is absent from the object. -/
structure DraftConfig where
  name : Option String := none
  description : Option String := none
  systemInstruction : Option String := none
deriving Repr, DecidableEq

/-- The live agent configuration (`AgentConfig` in `types.ts`), restricted
to the fields the lifecycle operations read or write. -/
structure AgentConfig where
  id : String
  name : String
  description : String
  systemInstruction : String
  model : String
  currentVersion : Nat
  promptVersions : List PromptVersion
  draftConfig : Option DraftConfig
deriving Repr, DecidableEq

/-- The live (published) fields of an agent, i.e. everything except
`draftConfig`. -/
def AgentConfig.liveFields (a : AgentConfig) :
    String × String × String × String × String × Nat × List PromptVersion :=
  (a.id, a.name, a.description, a.systemInstruction, a.model,
   a.currentVersion, a.promptVersions)

/-- The draft seeded by `saveDraft` when no draft exists yet: a copy of the
current live name / description / systemInstruction. -/
def seedDraft (agent : AgentConfig) : DraftConfig :=
  { name := some agent.name
  , description := some agent.description
  , systemInstruction := some agent.systemInstruction }

/-- JavaScript object-spread merge `{...currentDraft, ...draftUpdates}`:
a field present in the update wins, an absent field keeps the current
draft's value. -/
def mergeDraft (currentDraft draftUpdates : DraftConfig) : DraftConfig :=
  { name := draftUpdates.name.orElse (fun _ => currentDraft.name)
  , description := draftUpdates.description.orElse (fun _ => currentDraft.description)
  , systemInstruction :=
      draftUpdates.systemInstruction.orElse (fun _ => currentDraft.systemInstruction) }

/-- `saveDraft` restricted to the matching agent (body of the `map` in
`useAgents.saveDraft`). -/
def saveDraftAgent (draftUpdates : DraftConfig) (agent : AgentConfig) : AgentConfig :=
  let currentDraft := agent.draftConfig.getD (seedDraft agent)
  { agent with draftConfig := some (mergeDraft currentDraft draftUpdates) }

/-- `useAgents.saveDraft id draftUpdates`. -/
def saveDraft (id : String) (draftUpdates : DraftConfig)
    (agents : List AgentConfig) : List AgentConfig :=
  agents.map fun agent =>
    if agent.id = id then saveDraftAgent draftUpdates agent else agent

/-- `useAgents.discardDraft id`: clears `draftConfig` unconditionally. -/
def discardDraft (id : String) (agents : List AgentConfig) : List AgentConfig :=
  agents.map fun agent =>
    if agent.id = id then { agent with draftConfig := none } else agent

/-- `publishDraft` restricted to the matching agent.  `now` is the value of
`Date.now()` at publish time.  The guard
`draft.systemInstruction && draft.systemInstruction !== agent.systemInstruction`
requires the draft instruction to be present, truthy (non-empty) and
different from the live instruction; `changeLog || 'Published from draft'`
replaces an empty change log with the default placeholder. -/
def publishAgent (now : Nat) (changeLog : String) (agent : AgentConfig) : AgentConfig :=
  match agent.draftConfig with
  | none => agent
  | some draft =>
    let newVersionNumber := agent.currentVersion + 1
    let newVersions :=
      match draft.systemInstruction with
      | some si =>
          if si ≠ "" ∧ si ≠ agent.systemInstruction then
            { version := newVersionNumber
            , timestamp := now
            , systemInstruction := si
            , changeLog := if changeLog = "" then "Published from draft" else changeLog
            , author := "Admin" } :: agent.promptVersions
          else agent.promptVersions
      | none => agent.promptVersions
    { agent with
      name := draft.name.getD agent.name
      description := draft.description.getD agent.description
      systemInstruction := draft.systemInstruction.getD agent.systemInstruction
      currentVersion := newVersionNumber
      promptVersions := newVersions
      draftConfig := none }

/-- `useAgents.publishDraft id changeLog` over the whole registry
(`agent.id !== id || !agent.draftConfig` both leave the agent unchanged). -/
def publishDraft (id : String) (changeLog : String) (now : Nat)
    (agents : List AgentConfig) : List AgentConfig :=
  agents.map fun agent =>
    if agent.id = id then publishAgent now changeLog agent else agent

/-- `useAgents.deleteAgent id`. -/
def deleteAgent (id : String) (agents : List AgentConfig) : List AgentConfig :=
  agents.filter fun a => a.id ≠ id

/-- The save effect of `useAgents`: the persistence slot is overwritten
with the current list only when the list is non-empty
(`if (agents.length > 0) localStorage.setItem(...)`). -/
def persistAgents (agents : List AgentConfig)
    (slot : Option (List AgentConfig)) : Option (List AgentConfig) :=
  if agents.length > 0 then some agents else slot

/-- The load effect of `useAgents`: a readable slot wins, otherwise the
built-in defaults are installed. -/
def loadAgents (slot : Option (List AgentConfig))
    (defaults : List AgentConfig) : List AgentConfig :=
  match slot with
  | some parsed => parsed
  | none => defaults

/-- Message roles (`Role` in `types.ts`); `system` stands for any role
other than `USER` / `MODEL`, handled by the final `else` branch of
`handleDeleteMessage`. -/
inductive Role where
  | user
  | model
  | system
deriving Repr, DecidableEq

/-- Feedback recorded on a model message. -/
inductive Feedback where
  | up
  | down
deriving Repr, DecidableEq

/-- A chat message (`Message` in `types.ts`), restricted to the fields the
session operations read or write; attachments are kept abstract as a list
of opaque tokens. -/
structure Message where
  id : String
  role : Role
  text : String
  attachments : List String := []
  timestamp : Nat
  isStreaming : Bool := false
  feedback : Option Feedback := none
deriving Repr, DecidableEq

/-- A chat session (`Session` in `types.ts`). -/
structure Session where
  id : String
  title : String
  messages : List Message
  agentId : String
  lastModified : Nat
deriving Repr, DecidableEq

/-- `useChat.updateSessionMessages sessionId newMessages`: if the session
exists, it is rewritten with the new messages and `lastModified = now` and
moved to the front of the list; otherwise the list is unchanged. -/
def updateSessionMessages (now : Nat) (sessions : List Session)
    (sessionId : String) (newMessages : List Message) : List Session :=
  match sessions.find? (fun s => s.id = sessionId) with
  | none => sessions
  | some s =>
      { s with messages := newMessages, lastModified := now } ::
        sessions.filter (fun t => t.id ≠ sessionId)

/-- The derived `messages` value of `useChat`: the current session's
messages, or `[]` when no session is selected or found. -/
def currentMessages (sessions : List Session)
    (currentSessionId : Option String) : List Message :=
  match currentSessionId with
  | none => []
  | some cid => ((sessions.find? (fun s => s.id = cid)).map Session.messages).getD []

/-- A generation request issued to the remote backend
(`processGeminiRequest` call site), recorded as data. -/
structure GenRequest where
  sessionId : String
  history : List Message
  text : String
  attachments : List String
deriving Repr, DecidableEq

/-- `useChat.handleEditMessage messageId newText`: truncates history to
everything strictly before the edited message, replaces that message's
text (same id, role, attachments; new timestamp), re-sorts the session via
`updateSessionMessages` and issues a fresh generation request.  Returns
the new session list and the request, if any. -/
def handleEditMessage (now : Nat) (currentSessionId : Option String)
    (messageId newText : String) (sessions : List Session) :
    List Session × Option GenRequest :=
  match currentSessionId with
  | none => (sessions, none)
  | some cid =>
    let messages := currentMessages sessions (some cid)
    match messages.findIdx? (fun m => m.id = messageId) with
    | none => (sessions, none)
    | some msgIndex =>
      match messages[msgIndex]? with
      | none => (sessions, none)
      | some oldMsg =>
        let historyToKeep := messages.take msgIndex
        let updatedMsg : Message := { oldMsg with text := newText, timestamp := now }
        let newHistory := historyToKeep ++ [updatedMsg]
        (updateSessionMessages now sessions cid newHistory,
         some { sessionId := cid, history := newHistory, text := newText
              , attachments := updatedMsg.attachments })

/-- The splice step of `handleDeleteMessage`, acting on the message list
with the found index: a user message takes its following model message
with it, a model message takes its preceding user message with it, any
other message is removed alone. -/
def deleteMessageAt (messages : List Message) (msgIndex : Nat) : List Message :=
  match messages[msgIndex]? with
  | none => messages
  | some msg =>
    match msg.role with
    | Role.user =>
        if (messages[msgIndex + 1]?).map Message.role = some Role.model then
          messages.take msgIndex ++ messages.drop (msgIndex + 2)
        else
          messages.take msgIndex ++ messages.drop (msgIndex + 1)
    | Role.model =>
        if 0 < msgIndex ∧ (messages[msgIndex - 1]?).map Message.role = some Role.user then
          messages.take (msgIndex - 1) ++ messages.drop (msgIndex + 1)
        else
          messages.take msgIndex ++ messages.drop (msgIndex + 1)
    | Role.system =>
        messages.take msgIndex ++ messages.drop (msgIndex + 1)

/-- `useChat.handleDeleteMessage messageId`: a no-op without a selected
session or when the id is absent; otherwise splices out the message (and
its paired counterpart) and commits via `updateSessionMessages`. -/
def handleDeleteMessage (now : Nat) (currentSessionId : Option String)
    (messageId : String) (sessions : List Session) : List Session :=
  match currentSessionId with
  | none => sessions
  | some cid =>
    let messages := currentMessages sessions (some cid)
    match messages.findIdx? (fun m => m.id = messageId) with
    | none => sessions
    | some msgIndex =>
        updateSessionMessages now sessions cid (deleteMessageAt messages msgIndex)

/-- `useChat.handleFeedback messageId type`: maps over the sessions in
place, stamping the feedback onto the matching message of the current
session; the session order and `lastModified` are left as they are. -/
def handleFeedback (currentSessionId : Option String) (messageId : String)
    (ty : Feedback) (sessions : List Session) : List Session :=
  match currentSessionId with
  | none => sessions
  | some cid =>
      sessions.map fun s =>
        if s.id = cid then
          { s with messages := s.messages.map fun m =>
              if m.id = messageId then { m with feedback := some ty } else m }
        else s

/-- `useChat.handleSendMessage text attachments`: with no current session
a fresh one is created at the front (id from `Date.now()`, title the first
30 characters of the text plus an ellipsis when truncated); in either case
the user message is appended, committed via `updateSessionMessages`, and a
generation request for the updated history is issued. -/
def handleSendMessage (now : Nat) (currentSessionId : Option String)
    (activeAgentId : String) (text : String) (attachments : List String)
    (sessions : List Session) : List Session × String × GenRequest :=
  let seed :=
    match currentSessionId with
    | some cid => (cid, sessions, currentMessages sessions (some cid))
    | none =>
        let sid := toString now
        let newSession : Session :=
          { id := sid
          , title := text.take 30 ++ (if 30 < text.length then "..." else "")
          , messages := []
          , agentId := activeAgentId
          , lastModified := now }
        (sid, newSession :: sessions, [])
  let newUserMsg : Message :=
    { id := toString now, role := Role.user, text := text
    , attachments := attachments, timestamp := now }
  let updatedMessages := seed.2.2 ++ [newUserMsg]
  (updateSessionMessages now seed.2.1 seed.1 updatedMessages, seed.1,
   { sessionId := seed.1, history := updatedMessages, text := text
   , attachments := attachments })

/-- A judged result (`TestResult` in `types.ts`); `testCaseId` is attached
by the suite runner after judging. -/
structure TestResult where
  testCaseId : Option String := none
  pass : Bool
  score : Nat
  actualOutput : String
  reasoning : String
deriving Repr, DecidableEq

/-- The fields the judge reads out of the parsed JSON response; `none`
renders an absent (`undefined` / `null`) field, handled by `??`. -/
structure ParsedJudge where
  pass : Option Bool := none
  score : Option Nat := none
  reasoning : Option String := none
deriving Repr, DecidableEq

/-- The result object built from a successfully parsed judge response
(`evaluateTestCase`, success branch): each field falls back through `??`
when absent, and `pass` is copied verbatim from the response. -/
def judgeResultOfParsed (parsed : ParsedJudge) (actualOutput : String) : TestResult :=
  { pass := parsed.pass.getD false
  , score := parsed.score.getD 0
  , actualOutput := actualOutput
  , reasoning := parsed.reasoning.getD "Evaluation parsed." }

/-- The environment `evaluateTestCase` runs against: the configured base
URL slot, and the outcome of the awaited remote steps that produce the
raw judge response text (`Except.error` when any awaited call threw). -/
structure JudgeEnv where
  baseUrl : Option String
  transport : Except String String

/-- `evaluationService.evaluateTestCase`: missing base URL yields the
configuration fallback; a thrown remote step or an unparseable response
is caught and yields the API-error fallback; otherwise the parsed fields
are read out with `??` defaults.  `parse` stands for stripping the
formatting fences and `JSON.parse` (`none` = the parse threw). -/
def evaluateTestCase (env : JudgeEnv) (parse : String → Option ParsedJudge)
    (_input actualOutput _expectedOutput _systemInstruction : String) : TestResult :=
  match env.baseUrl with
  | none =>
      { pass := false, score := 0, actualOutput := actualOutput
      , reasoning := "Agno Service URL not configured." }
  | some _ =>
    match env.transport with
    | Except.error _ =>
        { pass := false, score := 0, actualOutput := actualOutput
        , reasoning := "Evaluation failed due to API error or parsing issue." }
    | Except.ok jsonResult =>
      match parse jsonResult with
      | none =>
          { pass := false, score := 0, actualOutput := actualOutput
          , reasoning := "Evaluation failed due to API error or parsing issue." }
      | some parsed => judgeResultOfParsed parsed actualOutput

/-- A suite case (`EvaluationCase` in `types.ts`). -/
structure EvaluationCase where
  id : String
  input : String
  expectedOutput : Option String := none
deriving Repr, DecidableEq

/-- A suite (`EvaluationSuite`), restricted to the fields `runSuite`
reads. -/
structure EvaluationSuite where
  id : String
  name : String
  cases : List EvaluationCase
deriving Repr, DecidableEq

/-- An immutable run record (`EvaluationRun`). -/
structure EvaluationRun where
  id : String
  suiteId : String
  suiteNameSnapshot : String
  agentId : String
  agentNameSnapshot : String
  agentVersionSnapshot : Nat
  timestamp : Nat
  overallScore : Nat
  results : List TestResult
deriving Repr, DecidableEq

/-- `Math.round (total / len)` for naturals with `len > 0`: JavaScript
rounds half away from zero, which for non-negative arguments is
`⌊total / len + 1 / 2⌋`. -/
def roundDiv (total len : Nat) : Nat :=
  (2 * total + len) / (2 * len)

/-- JavaScript `String.prototype.trim`: strips leading and trailing
whitespace. -/
def strTrim (s : String) : String :=
  ⟨((s.data.dropWhile Char.isWhitespace).reverse.dropWhile Char.isWhitespace).reverse⟩

/-- The per-case loop of `runSuite`: a blank (whitespace-only) input is
skipped by `continue`; a per-case exception is caught and the case simply
contributes nothing; otherwise the judged result is tagged with the case
id and collected. -/
def collectResults (env : EvaluationCase → Except String TestResult)
    (cases : List EvaluationCase) : List TestResult :=
  cases.foldl
    (fun results testCase =>
      if strTrim testCase.input = "" then results
      else
        match env testCase with
        | Except.error _ => results
        | Except.ok r => results ++ [{ r with testCaseId := some testCase.id }])
    []

/-- `useEvaluation.runSuite` for a given suite: `none` when the suite has
no cases or no base URL is configured (no run is created); otherwise the
sequential loop over the cases followed by the score aggregation and the
construction of the run record.  `env` maps each executed case to its
judged result, or to the exception its steps threw. -/
def runSuite (suite : EvaluationSuite) (agent : AgentConfig)
    (baseUrl : Option String) (env : EvaluationCase → Except String TestResult)
    (runId : String) (now : Nat) : Option EvaluationRun :=
  if suite.cases.length = 0 then none
  else
    match baseUrl with
    | none => none
    | some _ =>
      let results := collectResults env suite.cases
      let totalScore := results.foldl (fun acc r => acc + r.score) 0
      let avgScore := if results.length > 0 then roundDiv totalScore results.length else 0
      some
        { id := runId
        , suiteId := suite.id
        , suiteNameSnapshot := suite.name
        , agentId := agent.id
        , agentNameSnapshot := agent.name
        , agentVersionSnapshot := if agent.currentVersion = 0 then 1 else agent.currentVersion
        , timestamp := now
        , overallScore := avgScore
        , results := results }

/-! ### Helper lemmas -/

theorem liveFields_saveDraftAgent (u : DraftConfig) (a : AgentConfig) :
    (saveDraftAgent u a).liveFields = a.liveFields := rfl

theorem map_liveFields_saveDraft (i : String) (u : DraftConfig) (l : List AgentConfig) :
    (saveDraft i u l).map AgentConfig.liveFields = l.map AgentConfig.liveFields := by
  unfold saveDraft
  rw [List.map_map]
  refine List.map_congr_left fun a _ => ?_
  by_cases h : a.id = i <;> simp [h, liveFields_saveDraftAgent]

theorem map_liveFields_discardDraft (i : String) (l : List AgentConfig) :
    (discardDraft i l).map AgentConfig.liveFields = l.map AgentConfig.liveFields := by
  unfold discardDraft
  rw [List.map_map]
  refine List.map_congr_left fun a _ => ?_
  by_cases h : a.id = i <;> simp [h, AgentConfig.liveFields]

/-! ### C6: draft operations never mutate live fields -/

/-- C6: for every agent and every sequence of saveDraft calls followed by
discardDraft, the live fields (id, name, description, systemInstruction,
model, currentVersion, promptVersions) of every agent in the registry are
identical to their values before the first saveDraft: saveDraft and
discardDraft modify only the draftConfig field. -/
theorem draft_ops_preserve_live_fields (calls : List (String × DraftConfig))
    (id : String) (agents : List AgentConfig) :
    (discardDraft id
        (calls.foldl (fun acc c => saveDraft c.1 c.2 acc) agents)).map
      AgentConfig.liveFields = agents.map AgentConfig.liveFields := by
  rw [map_liveFields_discardDraft]
  induction calls generalizing agents with
  | nil => rfl
  | cons c t ih =>
      rw [List.foldl_cons, ih, map_liveFields_saveDraft]

/-! ### C5: publish is a no-op without a draft, and otherwise increments
the version by exactly one -/

/-- C5: publishDraft on an agent without a draft leaves the agent
value-unchanged (no version increment, no history entry), and on an agent
with a draft increments currentVersion by exactly 1, whether or not the
draft instruction differs from the live instruction. -/
theorem publishDraft_version_semantics (now : Nat) (changeLog : String)
    (agent : AgentConfig) :
    (agent.draftConfig = none → publishAgent now changeLog agent = agent) ∧
    (agent.draftConfig.isSome →
      (publishAgent now changeLog agent).currentVersion = agent.currentVersion + 1) := by
  constructor
  · intro h
    simp [publishAgent, h]
  · intro h
    obtain ⟨draft, hd⟩ := Option.isSome_iff_exists.mp h
    simp [publishAgent, hd]

/-- Witness for C5: a draftless agent is returned unchanged, and an agent
whose draft has the same instruction as the live one still gets its
version bumped from 1 to 2. -/
theorem publishDraft_version_semantics_witness :
    (publishAgent 5 "log"
        { id := "a", name := "N", description := "D", systemInstruction := "s"
        , model := "m", currentVersion := 1, promptVersions := []
        , draftConfig := none } =
      { id := "a", name := "N", description := "D", systemInstruction := "s"
      , model := "m", currentVersion := 1, promptVersions := []
      , draftConfig := none }) ∧
    (publishAgent 5 "log"
        { id := "a", name := "N", description := "D", systemInstruction := "s"
        , model := "m", currentVersion := 1, promptVersions := []
        , draftConfig := some { systemInstruction := some "s" } }).currentVersion = 2 :=
  ⟨(publishDraft_version_semantics 5 "log" _).1 rfl,
   (publishDraft_version_semantics 5 "log" _).2 rfl⟩

/-! ### C1: which publishes record a PromptVersion entry, and how the
recorded version numbers evolve -/

/-- The guard of `publishDraft` in propositional form: the draft exists
and carries a systemInstruction that is truthy (non-empty) and different
from the live one. -/
def draftInstructionChanged (agent : AgentConfig) : Prop :=
  ∃ draft, agent.draftConfig = some draft ∧
    ∃ si, draft.systemInstruction = some si ∧ si ≠ "" ∧ si ≠ agent.systemInstruction

/-- An agent whose draft clears the instruction to the empty string. -/
def emptyInstrAgent : AgentConfig :=
  { id := "a", name := "N", description := "D", systemInstruction := "x"
  , model := "m", currentVersion := 1, promptVersions := []
  , draftConfig := some { systemInstruction := some "" } }

/-- A fresh agent used to drive a three-publish sequence. -/
def seqAgent : AgentConfig :=
  { id := "b", name := "N", description := "D", systemInstruction := "a"
  , model := "m", currentVersion := 1, promptVersions := [], draftConfig := none }

/-- Counterexample to C1.  First, a draft whose systemInstruction is the
empty string differs from the live instruction "x", yet publish records
no PromptVersion entry (the guard also demands JavaScript truthiness), so
"an entry is recorded if and only if the draft instruction differs" fails.
Second, publishing an instruction change, then a name-only change, then
another instruction change yields recorded version fields [4, 2]: the
publish without an instruction change consumed version 3, so the recorded
versions are not "increasing by exactly 1 with no gaps". -/
theorem publish_history_counterexample :
    ((publishAgent 0 "log" emptyInstrAgent).currentVersion = 2 ∧
      emptyInstrAgent.draftConfig = some { systemInstruction := some "" } ∧
      "" ≠ emptyInstrAgent.systemInstruction ∧
      (publishAgent 0 "log" emptyInstrAgent).promptVersions = []) ∧
    (publishAgent 30 "c3" (saveDraftAgent { systemInstruction := some "c" }
        (publishAgent 20 "c2" (saveDraftAgent { name := some "N2" }
          (publishAgent 10 "c1"
            (saveDraftAgent { systemInstruction := some "b" } seqAgent)))))).promptVersions.map
      PromptVersion.version = [4, 2] := by
  decide

/-- C1 as amended: a PromptVersion entry is recorded if and only if the
draft is present with a non-empty systemInstruction that differs from the
live one; the entry is prepended (newest first) with version equal to the
new currentVersion; and the recorded version fields stay strictly
decreasing from the head and bounded by currentVersion — but consecutive
recorded versions may differ by more than 1, because every publish
consumes a version number whether or not it records an entry. -/
theorem publish_history_semantics (now : Nat) (changeLog : String)
    (agent : AgentConfig)
    (hchain : List.Chain' (fun p q => q.version < p.version) agent.promptVersions)
    (hbound : ∀ p ∈ agent.promptVersions, p.version ≤ agent.currentVersion) :
    ((∃ e, (publishAgent now changeLog agent).promptVersions = e :: agent.promptVersions ∧
        e.version = agent.currentVersion + 1 ∧ e.timestamp = now) ↔
      draftInstructionChanged agent) ∧
    (¬ draftInstructionChanged agent →
      (publishAgent now changeLog agent).promptVersions = agent.promptVersions) ∧
    List.Chain' (fun p q => q.version < p.version)
      (publishAgent now changeLog agent).promptVersions ∧
    ∀ p ∈ (publishAgent now changeLog agent).promptVersions,
      p.version ≤ (publishAgent now changeLog agent).currentVersion := by
  rcases hdc : agent.draftConfig with _ | draft
  · have hP : publishAgent now changeLog agent = agent := by
      simp [publishAgent, hdc]
    rw [hP]
    refine ⟨⟨fun ⟨e, he, _⟩ => absurd he.symm (List.cons_ne_self e _), ?_⟩,
      fun _ => rfl, hchain, hbound⟩
    rintro ⟨d, hd, -⟩
    rw [hdc] at hd
    exact Option.noConfusion hd
  · rcases hsi : draft.systemInstruction with _ | si
    · have hv : (publishAgent now changeLog agent).promptVersions = agent.promptVersions := by
        simp [publishAgent, hdc, hsi]
      have hc : (publishAgent now changeLog agent).currentVersion =
          agent.currentVersion + 1 := by
        simp [publishAgent, hdc]
      have hnc : ¬ draftInstructionChanged agent := by
        rintro ⟨d, hd, si', hsi', -, -⟩
        rw [hdc] at hd
        cases hd
        rw [hsi] at hsi'
        exact Option.noConfusion hsi'
      refine ⟨⟨fun ⟨e, he, _⟩ => ?_, fun h => absurd h hnc⟩, fun _ => hv, ?_, ?_⟩
      · rw [hv] at he
        exact absurd he.symm (List.cons_ne_self e _)
      · rw [hv]; exact hchain
      · intro p hp
        rw [hv] at hp
        rw [hc]
        exact (hbound p hp).trans (Nat.le_succ _)
    · by_cases hcond : si ≠ "" ∧ si ≠ agent.systemInstruction
      · have hv : (publishAgent now changeLog agent).promptVersions =
            { version := agent.currentVersion + 1, timestamp := now
            , systemInstruction := si
            , changeLog := if changeLog = "" then "Published from draft" else changeLog
            , author := "Admin" } :: agent.promptVersions := by
          simp [publishAgent, hdc, hsi, hcond]
        have hc : (publishAgent now changeLog agent).currentVersion =
            agent.currentVersion + 1 := by
          simp [publishAgent, hdc]
        have hch : draftInstructionChanged agent :=
          ⟨draft, hdc, si, hsi, hcond.1, hcond.2⟩
        refine ⟨⟨fun _ => hch, fun _ => ⟨_, hv, rfl, rfl⟩⟩, fun h => absurd hch h, ?_, ?_⟩
        · rw [hv]
          refine List.chain'_cons'.mpr ⟨fun y hy => ?_, hchain⟩
          exact Nat.lt_succ_of_le (hbound y (List.mem_of_mem_head? hy))
        · intro p hp
          rw [hv] at hp
          rw [hc]
          rcases List.mem_cons.mp hp with h | h
          · rw [h]
          · exact (hbound p h).trans (Nat.le_succ _)
      · have hv : (publishAgent now changeLog agent).promptVersions =
            agent.promptVersions := by
          simp [publishAgent, hdc, hsi, hcond]
        have hc : (publishAgent now changeLog agent).currentVersion =
            agent.currentVersion + 1 := by
          simp [publishAgent, hdc]
        have hnc : ¬ draftInstructionChanged agent := by
          rintro ⟨d, hd, si', hsi', h1, h2⟩
          rw [hdc] at hd
          cases hd
          rw [hsi] at hsi'
          cases hsi'
          exact hcond ⟨h1, h2⟩
        refine ⟨⟨fun ⟨e, he, _⟩ => ?_, fun h => absurd h hnc⟩, fun _ => hv, ?_, ?_⟩
        · rw [hv] at he
          exact absurd he.symm (List.cons_ne_self e _)
        · rw [hv]; exact hchain
        · intro p hp
          rw [hv] at hp
          rw [hc]
          exact (hbound p hp).trans (Nat.le_succ _)

/-- An agent with one recorded version and a draft changing the
instruction, used to instantiate the amended C1 theorem. -/
def publishWitnessAgent : AgentConfig :=
  { id := "w", name := "N", description := "D", systemInstruction := "old"
  , model := "m", currentVersion := 2
  , promptVersions := [{ version := 2, timestamp := 1, systemInstruction := "old"
                       , changeLog := "c", author := "Admin" }]
  , draftConfig := some { systemInstruction := some "new" } }

/-- Witness for the amended C1 theorem at a concrete agent. -/
theorem publish_history_semantics_witness :
    ((∃ e, (publishAgent 9 "log" publishWitnessAgent).promptVersions =
          e :: publishWitnessAgent.promptVersions ∧
        e.version = publishWitnessAgent.currentVersion + 1 ∧ e.timestamp = 9) ↔
      draftInstructionChanged publishWitnessAgent) ∧
    (¬ draftInstructionChanged publishWitnessAgent →
      (publishAgent 9 "log" publishWitnessAgent).promptVersions =
        publishWitnessAgent.promptVersions) ∧
    List.Chain' (fun p q => q.version < p.version)
      (publishAgent 9 "log" publishWitnessAgent).promptVersions ∧
    ∀ p ∈ (publishAgent 9 "log" publishWitnessAgent).promptVersions,
      p.version ≤ (publishAgent 9 "log" publishWitnessAgent).currentVersion :=
  publish_history_semantics 9 "log" publishWitnessAgent
    (by simp [publishWitnessAgent]) (by simp [publishWitnessAgent])

/-! ### C2: where the pass flag of a judged result comes from -/

/-- A judge response whose JSON carries score 70 together with pass
false. -/
def judgeParse70 : String → Option ParsedJudge := fun _ =>
  some { pass := some false, score := some 70, reasoning := some "borderline" }

/-- Counterexample to C2: the judge copies the pass flag verbatim from the
response instead of thresholding the score, so a response with score
exactly 70 and pass false produces a result with score 70 and pass false,
contradicting "a result with score exactly 70 has pass = true". -/
theorem judge_pass_counterexample :
    (evaluateTestCase { baseUrl := some "http://x", transport := Except.ok "resp" }
        judgeParse70 "in" "act" "exp" "sys").score = 70 ∧
    (evaluateTestCase { baseUrl := some "http://x", transport := Except.ok "resp" }
        judgeParse70 "in" "act" "exp" "sys").pass = false := by
  decide

/-- C2 as amended: in both judge modes the pass and score fields of the
returned result are read independently from the parsed judge response —
pass is the response's pass flag (false when absent) and score is the
response's score (0 when absent); no score-threshold is applied by the
client, so pass is not determined by score ≥ 70. -/
theorem judge_pass_from_response (u jsonResult : String)
    (parse : String → Option ParsedJudge) (parsed : ParsedJudge)
    (hparse : parse jsonResult = some parsed)
    (input actual expected sysInstr : String) :
    (evaluateTestCase { baseUrl := some u, transport := Except.ok jsonResult }
        parse input actual expected sysInstr).pass = parsed.pass.getD false ∧
    (evaluateTestCase { baseUrl := some u, transport := Except.ok jsonResult }
        parse input actual expected sysInstr).score = parsed.score.getD 0 := by
  simp [evaluateTestCase, hparse, judgeResultOfParsed]

/-- Witness for the amended C2 theorem: a response with pass true and
score 10 yields exactly those fields. -/
theorem judge_pass_from_response_witness :
    (evaluateTestCase { baseUrl := some "u", transport := Except.ok "resp" }
        (fun _ => some { pass := some true, score := some 10 })
        "in" "act" "exp" "sys").pass =
      (some true : Option Bool).getD false ∧
    (evaluateTestCase { baseUrl := some "u", transport := Except.ok "resp" }
        (fun _ => some { pass := some true, score := some 10 })
        "in" "act" "exp" "sys").score =
      (some 10 : Option Nat).getD 0 :=
  judge_pass_from_response "u" "resp"
    (fun _ => some { pass := some true, score := some 10 })
    { pass := some true, score := some 10 } rfl "in" "act" "exp" "sys"

/-! ### C7: the judge never propagates an exception -/

/-- C7: evaluateTestCase is a total function of its environment — on a
missing base URL, a thrown remote step, or an unparseable response it
returns a well-formed TestResult with score 0, pass false and a reasoning
string describing the failure, and in every case the result carries the
actual output it was given. -/
theorem judge_fallback_total (env : JudgeEnv) (parse : String → Option ParsedJudge)
    (input actual expected sysInstr : String) :
    (evaluateTestCase env parse input actual expected sysInstr).actualOutput = actual ∧
    ((env.baseUrl = none ∨ (∃ e, env.transport = Except.error e) ∨
        (∃ jr, env.transport = Except.ok jr ∧ parse jr = none)) →
      (evaluateTestCase env parse input actual expected sysInstr).score = 0 ∧
      (evaluateTestCase env parse input actual expected sysInstr).pass = false ∧
      ((evaluateTestCase env parse input actual expected sysInstr).reasoning =
          "Agno Service URL not configured." ∨
        (evaluateTestCase env parse input actual expected sysInstr).reasoning =
          "Evaluation failed due to API error or parsing issue.")) := by
  obtain ⟨burl, transport⟩ := env
  rcases burl with _ | u
  · exact ⟨rfl, fun _ => ⟨rfl, rfl, Or.inl rfl⟩⟩
  · rcases transport with e | jr
    · exact ⟨rfl, fun _ => ⟨rfl, rfl, Or.inr rfl⟩⟩
    · rcases hp : parse jr with _ | parsed
      · simp [evaluateTestCase, hp]
      · refine ⟨by simp [evaluateTestCase, hp, judgeResultOfParsed], ?_⟩
        rintro (h | ⟨e, he⟩ | ⟨jr', hjr, hpn⟩)
        · exact Option.noConfusion h
        · exact Except.noConfusion he
        · cases hjr
          rw [hp] at hpn
          exact Option.noConfusion hpn

/-- Witness for C7: with no configured base URL the configuration
fallback is returned. -/
theorem judge_fallback_total_witness :
    (evaluateTestCase { baseUrl := none, transport := Except.ok "resp" }
        (fun _ => none) "in" "act" "exp" "sys").actualOutput = "act" ∧
    (evaluateTestCase { baseUrl := none, transport := Except.ok "resp" }
        (fun _ => none) "in" "act" "exp" "sys").score = 0 ∧
    (evaluateTestCase { baseUrl := none, transport := Except.ok "resp" }
        (fun _ => none) "in" "act" "exp" "sys").pass = false ∧
    ((evaluateTestCase { baseUrl := none, transport := Except.ok "resp" }
          (fun _ => none) "in" "act" "exp" "sys").reasoning =
        "Agno Service URL not configured." ∨
      (evaluateTestCase { baseUrl := none, transport := Except.ok "resp" }
          (fun _ => none) "in" "act" "exp" "sys").reasoning =
        "Evaluation failed due to API error or parsing issue.") :=
  ⟨(judge_fallback_total { baseUrl := none, transport := Except.ok "resp" }
      (fun _ => none) "in" "act" "exp" "sys").1,
   (judge_fallback_total { baseUrl := none, transport := Except.ok "resp" }
      (fun _ => none) "in" "act" "exp" "sys").2 (Or.inl rfl)⟩

/-! ### Helper lemmas for the suite runner -/

theorem roundDiv_eq_round (t l : Nat) (hl : 0 < l) :
    (roundDiv t l : ℤ) = round ((t : ℚ) / (l : ℚ)) := by
  rw [round_eq]
  have hl' : (l : ℚ) ≠ 0 := Nat.cast_ne_zero.mpr hl.ne'
  have h1 : (t : ℚ) / (l : ℚ) + 1 / 2 = ((2 * t + l : ℕ) : ℚ) / ((2 * l : ℕ) : ℚ) := by
    push_cast
    field_simp
    ring
  rw [h1, ← Int.natCast_floor_eq_floor (by positivity), Nat.floor_div_eq_div]
  rfl

theorem foldl_score_eq_sum (l : List TestResult) (n : Nat) :
    l.foldl (fun acc r => acc + r.score) n = n + (l.map TestResult.score).sum := by
  induction l generalizing n with
  | nil => simp
  | cons r t ih => simp [ih, Nat.add_assoc]

theorem collectResults_foldl_filter (env : EvaluationCase → Except String TestResult)
    (cases : List EvaluationCase) (acc : List TestResult) :
    cases.foldl
        (fun results testCase =>
          if strTrim testCase.input = "" then results
          else
            match env testCase with
            | Except.error _ => results
            | Except.ok r => results ++ [{ r with testCaseId := some testCase.id }])
        acc =
      (cases.filter fun c => strTrim c.input ≠ "").foldl
        (fun results testCase =>
          if strTrim testCase.input = "" then results
          else
            match env testCase with
            | Except.error _ => results
            | Except.ok r => results ++ [{ r with testCaseId := some testCase.id }])
        acc := by
  induction cases generalizing acc with
  | nil => rfl
  | cons c t ih =>
      by_cases h : strTrim c.input = ""
      · have hp : (decide (strTrim c.input ≠ "")) = false := by simp [h]
        rw [List.foldl_cons, if_pos h, List.filter_cons, hp]
        simp only [Bool.false_eq_true, if_false]
        exact ih acc
      · have hp : (decide (strTrim c.input ≠ "")) = true := by simp [h]
        rw [List.foldl_cons, if_neg h, List.filter_cons, hp]
        simp only [if_true]
        rw [List.foldl_cons, if_neg h]
        exact ih _

theorem collectResults_eq_filter (env : EvaluationCase → Except String TestResult)
    (cases : List EvaluationCase) :
    collectResults env cases =
      collectResults env (cases.filter fun c => strTrim c.input ≠ "") :=
  collectResults_foldl_filter env cases []

theorem runSuite_eq (suite : EvaluationSuite) (agent : AgentConfig) (u : String)
    (env : EvaluationCase → Except String TestResult) (runId : String) (now : Nat)
    (h : ¬ suite.cases.length = 0) :
    runSuite suite agent (some u) env runId now =
      some
        { id := runId
        , suiteId := suite.id
        , suiteNameSnapshot := suite.name
        , agentId := agent.id
        , agentNameSnapshot := agent.name
        , agentVersionSnapshot :=
            if agent.currentVersion = 0 then 1 else agent.currentVersion
        , timestamp := now
        , overallScore :=
            if (collectResults env suite.cases).length > 0 then
              roundDiv
                ((collectResults env suite.cases).foldl (fun acc r => acc + r.score) 0)
                (collectResults env suite.cases).length
            else 0
        , results := collectResults env suite.cases } := by
  unfold runSuite
  rw [if_neg h]

/-! ### C4: the overall score is the rounded mean of the collected
scores -/

/-- C4: for every completed runSuite execution, the overallScore of the
created EvaluationRun is 0 when no results were collected, and otherwise
equals the arithmetic mean of the collected scores rounded half-up
(JavaScript Math.round). -/
theorem runSuite_overallScore (suite : EvaluationSuite) (agent : AgentConfig)
    (u : String) (env : EvaluationCase → Except String TestResult)
    (runId : String) (now : Nat) (run : EvaluationRun)
    (h : runSuite suite agent (some u) env runId now = some run) :
    (run.results = [] → run.overallScore = 0) ∧
    (run.results ≠ [] →
      (run.overallScore : ℤ) =
        round (((run.results.map TestResult.score).sum : ℚ) /
          (run.results.length : ℚ))) := by
  have hc : ¬ suite.cases.length = 0 := by
    intro hc
    rw [runSuite, if_pos hc] at h
    exact Option.noConfusion h
  rw [runSuite_eq suite agent u env runId now hc] at h
  replace h := (Option.some.inj h).symm
  subst h
  constructor
  · intro hres
    simp only at hres ⊢
    rw [hres]
    rfl
  · intro hres
    have hlen : 0 < (collectResults env suite.cases).length :=
      List.length_pos.mpr hres
    simp only
    rw [if_pos hlen, foldl_score_eq_sum, Nat.zero_add]
    exact roundDiv_eq_round _ _ hlen

/-- Agent used for the concrete suite run. -/
def c4agent : AgentConfig :=
  { id := "ag", name := "Agent", description := "", systemInstruction := "sys"
  , model := "m", currentVersion := 3, promptVersions := [], draftConfig := none }

/-- A suite with three non-blank cases. -/
def c4suite : EvaluationSuite :=
  { id := "s", name := "Suite"
  , cases := [ { id := "1", input := "i1", expectedOutput := some "e1" }
             , { id := "2", input := "i2" }
             , { id := "3", input := "i3" } ] }

/-- A backend in which the three cases are judged 80, 60 and 100. -/
def c4env : EvaluationCase → Except String TestResult := fun c =>
  if c.id = "1" then
    Except.ok { pass := true, score := 80, actualOutput := "a1", reasoning := "r1" }
  else if c.id = "2" then
    Except.ok { pass := false, score := 60, actualOutput := "a2", reasoning := "r2" }
  else
    Except.ok { pass := true, score := 100, actualOutput := "a3", reasoning := "r3" }

/-- The run produced by the concrete suite execution: scores [80, 60, 100]
give overallScore 80. -/
def c4run : EvaluationRun :=
  { id := "r", suiteId := "s", suiteNameSnapshot := "Suite", agentId := "ag"
  , agentNameSnapshot := "Agent", agentVersionSnapshot := 3, timestamp := 7
  , overallScore := 80
  , results :=
      [ { testCaseId := some "1", pass := true, score := 80
        , actualOutput := "a1", reasoning := "r1" }
      , { testCaseId := some "2", pass := false, score := 60
        , actualOutput := "a2", reasoning := "r2" }
      , { testCaseId := some "3", pass := true, score := 100
        , actualOutput := "a3", reasoning := "r3" } ] }

/-- Witness for C4: the concrete run with collected scores [80, 60, 100]
has overallScore 80, and satisfies the rounded-mean characterisation. -/
theorem runSuite_overallScore_witness :
    runSuite c4suite c4agent (some "u") c4env "r" 7 = some c4run ∧
    c4run.overallScore = 80 ∧
    ((c4run.results = [] → c4run.overallScore = 0) ∧
      (c4run.results ≠ [] →
        (c4run.overallScore : ℤ) =
          round (((c4run.results.map TestResult.score).sum : ℚ) /
            (c4run.results.length : ℚ)))) :=
  ⟨by decide, rfl,
   runSuite_overallScore c4suite c4agent "u" c4env "r" 7 c4run (by decide)⟩

/-! ### C8: blank-input cases are skipped -/

/-- C8: runSuite executes only cases whose input is non-empty after
trimming — the collected results are exactly those of the non-blank
cases — and on a suite whose every case has blank input a run is still
created, with an empty results list and overallScore 0. -/
theorem runSuite_skips_blank_inputs (suite : EvaluationSuite) (agent : AgentConfig)
    (u : String) (env : EvaluationCase → Except String TestResult)
    (runId : String) (now : Nat) :
    (∀ run, runSuite suite agent (some u) env runId now = some run →
      run.results = collectResults env (suite.cases.filter fun c => strTrim c.input ≠ "")) ∧
    (suite.cases ≠ [] → (∀ c ∈ suite.cases, strTrim c.input = "") →
      ∃ run, runSuite suite agent (some u) env runId now = some run ∧
        run.results = [] ∧ run.overallScore = 0) := by
  have hlen : suite.cases ≠ [] → ¬ suite.cases.length = 0 := by
    intro hne hzero
    exact hne (List.length_eq_zero.mp hzero)
  constructor
  · intro run h
    have hc : ¬ suite.cases.length = 0 := by
      intro hc
      rw [runSuite, if_pos hc] at h
      exact Option.noConfusion h
    rw [runSuite_eq suite agent u env runId now hc] at h
    replace h := (Option.some.inj h).symm
    subst h
    exact collectResults_eq_filter env suite.cases
  · intro hne hblank
    have hfil : (suite.cases.filter fun c => strTrim c.input ≠ "") = [] := by
      apply List.filter_eq_nil_iff.mpr
      intro c hc
      simp [hblank c hc]
    have hres : collectResults env suite.cases = [] := by
      rw [collectResults_eq_filter, hfil]
      rfl
    refine ⟨_, runSuite_eq suite agent u env runId now (hlen hne), ?_, ?_⟩
    · exact hres
    · simp only [hres]
      rfl

/-- Witness for C8: a one-case suite whose only input is blank yields a
run with no results and overallScore 0. -/
theorem runSuite_skips_blank_inputs_witness :
    ∃ run,
      runSuite { id := "s", name := "S"
               , cases := [{ id := "c1", input := "", expectedOutput := some "x" }] }
          c4agent (some "u") (fun _ => Except.error "never executed") "r" 3 =
        some run ∧
      run.results = [] ∧ run.overallScore = 0 :=
  (runSuite_skips_blank_inputs
      { id := "s", name := "S"
      , cases := [{ id := "c1", input := "", expectedOutput := some "x" }] }
      c4agent "u" (fun _ => Except.error "never executed") "r" 3).2
    (by decide) (by decide)

/-! ### C3: which mutations move the session to the front of the list -/

/-- A model message carrying feedback in the counterexample session. -/
def fbMsg : Message :=
  { id := "m1", role := Role.model, text := "t", timestamp := 5 }

/-- A session sitting at index 0 of the list. -/
def fbSessionA : Session :=
  { id := "A", title := "a", messages := [], agentId := "g", lastModified := 9 }

/-- The current session, sitting at index 1 of the list. -/
def fbSessionB : Session :=
  { id := "B", title := "b", messages := [fbMsg], agentId := "g", lastModified := 3 }

/-- Counterexample to C3: recording feedback on a message of the current
session B mutates the message (its feedback becomes up), yet B stays at
index 1 and its lastModified stays 3 — handleFeedback neither moves the
session to index 0 nor updates lastModified. -/
theorem feedback_ordering_counterexample :
    (handleFeedback (some "B") "m1" Feedback.up [fbSessionA, fbSessionB]).map
        (fun s => (s.id, s.lastModified)) = [("A", 9), ("B", 3)] ∧
    (handleFeedback (some "B") "m1" Feedback.up [fbSessionA, fbSessionB]).map
        Session.messages =
      [[], [{ fbMsg with feedback := some Feedback.up }]] := by
  decide

/-- C3 as amended: sending, editing and deleting a message all commit
through updateSessionMessages, which moves the current session S to index
0 of the list and sets its lastModified to the current time; recording
feedback, by contrast, updates the message in place and preserves both
the position and the lastModified of every session. -/
theorem session_mutation_front (now : Nat) (sessions : List Session)
    (cid mid newText aid text : String) (atts : List String)
    (msgs : List Message) (ty : Feedback) (s : Session)
    (hfind : sessions.find? (fun t => t.id = cid) = some s)
    (hmsg : (s.messages.findIdx? (fun m => m.id = mid)).isSome) :
    ((updateSessionMessages now sessions cid msgs).head? =
      some { s with messages := msgs, lastModified := now }) ∧
    ((handleSendMessage now (some cid) aid text atts sessions).1.head?.map
        (fun t => (t.id, t.lastModified)) = some (cid, now)) ∧
    ((handleDeleteMessage now (some cid) mid sessions).head?.map
        (fun t => (t.id, t.lastModified)) = some (cid, now)) ∧
    ((handleEditMessage now (some cid) mid newText sessions).1.head?.map
        (fun t => (t.id, t.lastModified)) = some (cid, now)) ∧
    ((handleFeedback (some cid) mid ty sessions).map
        (fun t => (t.id, t.lastModified)) =
      sessions.map (fun t => (t.id, t.lastModified))) := by
  have hsid : s.id = cid := by simpa using List.find?_some hfind
  have hupd : ∀ ms, updateSessionMessages now sessions cid ms =
      { s with messages := ms, lastModified := now } ::
        sessions.filter (fun t => t.id ≠ cid) := by
    intro ms
    unfold updateSessionMessages
    rw [hfind]
  have hcm : currentMessages sessions (some cid) = s.messages := by
    simp [currentMessages, hfind]
  obtain ⟨i, hi⟩ := Option.isSome_iff_exists.mp hmsg
  obtain ⟨hlt, -, -⟩ := List.findIdx?_eq_some_iff_getElem.mp hi
  refine ⟨?_, ?_, ?_, ?_, ?_⟩
  · rw [hupd]
    rfl
  · simp only [handleSendMessage, hcm, hupd]
    simp [hsid]
  · simp only [handleDeleteMessage, hcm, hi, hupd]
    simp [hsid]
  · simp only [handleEditMessage, hcm, hi, List.getElem?_eq_getElem hlt, hupd]
    simp [hsid]
  · simp only [handleFeedback]
    have : sessions.map
        ((fun t => (t.id, t.lastModified)) ∘ fun t =>
          if t.id = cid then
            { t with messages := t.messages.map fun m =>
                if m.id = mid then { m with feedback := some ty } else m }
          else t) = sessions.map (fun t => (t.id, t.lastModified)) := by
      refine List.map_congr_left fun t _ => ?_
      by_cases ht : t.id = cid <;> simp [ht]
    rw [← this, ← List.map_map]

/-- Witness for the amended C3 theorem at a concrete two-session list. -/
theorem session_mutation_front_witness :
    ((updateSessionMessages 100 [fbSessionA, fbSessionB] "B" []).head? =
      some { fbSessionB with messages := [], lastModified := 100 }) ∧
    ((handleSendMessage 100 (some "B") "g" "hello" [] [fbSessionA, fbSessionB]).1.head?.map
        (fun t => (t.id, t.lastModified)) = some ("B", 100)) ∧
    ((handleDeleteMessage 100 (some "B") "m1" [fbSessionA, fbSessionB]).head?.map
        (fun t => (t.id, t.lastModified)) = some ("B", 100)) ∧
    ((handleEditMessage 100 (some "B") "m1" "new" [fbSessionA, fbSessionB]).1.head?.map
        (fun t => (t.id, t.lastModified)) = some ("B", 100)) ∧
    ((handleFeedback (some "B") "m1" Feedback.down [fbSessionA, fbSessionB]).map
        (fun t => (t.id, t.lastModified)) =
      [fbSessionA, fbSessionB].map (fun t => (t.id, t.lastModified))) :=
  session_mutation_front 100 [fbSessionA, fbSessionB] "B" "m1" "new" "g" "hello"
    [] [] Feedback.down fbSessionB (by decide) (by decide)

/-! ### C9: edit / delete / feedback are silent no-ops on a missing
session or message -/

/-- C9: when no session is selected, or the given message id does not
occur in the messages of any session carrying the current id (in
particular the current session), handleEditMessage, handleDeleteMessage
and handleFeedback leave the session list value-unchanged, and the edit
issues no generation request. -/
theorem mutation_noop_on_missing_target (now : Nat) (cid : Option String)
    (mid newText : String) (ty : Feedback) (sessions : List Session)
    (h : cid = none ∨ ∃ c, cid = some c ∧
      ∀ s ∈ sessions, s.id = c → ∀ m ∈ s.messages, m.id ≠ mid) :
    handleEditMessage now cid mid newText sessions = (sessions, none) ∧
    handleDeleteMessage now cid mid sessions = sessions ∧
    handleFeedback cid mid ty sessions = sessions := by
  rcases h with rfl | ⟨c, rfl, hnone⟩
  · exact ⟨rfl, rfl, rfl⟩
  · have hcm : ∀ m ∈ currentMessages sessions (some c), m.id ≠ mid := by
      intro m hm
      simp only [currentMessages] at hm
      rcases hf : sessions.find? (fun t => t.id = c) with _ | s
      · rw [hf] at hm
        exact absurd hm (List.not_mem_nil m)
      · rw [hf] at hm
        exact hnone s (List.mem_of_find?_eq_some hf)
          (by simpa using List.find?_some hf) m hm
    have hfidx : (currentMessages sessions (some c)).findIdx?
        (fun m => m.id = mid) = none :=
      List.findIdx?_eq_none_iff.mpr fun m hm => by simp [hcm m hm]
    refine ⟨?_, ?_, ?_⟩
    · simp only [handleEditMessage, hfidx]
    · simp only [handleDeleteMessage, hfidx]
    · simp only [handleFeedback]
      have : sessions.map (fun t =>
          if t.id = c then
            { t with messages := t.messages.map fun m =>
                if m.id = mid then { m with feedback := some ty } else m }
          else t) = sessions.map id := by
        refine List.map_congr_left fun t ht => ?_
        by_cases htc : t.id = c
        · rw [if_pos htc]
          have hmm : t.messages.map (fun m =>
              if m.id = mid then { m with feedback := some ty } else m) =
                t.messages.map id := by
            refine List.map_congr_left fun m hm => ?_
            rw [if_neg (hnone t ht htc m hm)]
            rfl
          rw [hmm, List.map_id]
          rfl
        · rw [if_neg htc]
          rfl
      rw [this, List.map_id]

/-- A single-message session for instantiating the no-op theorem. -/
def c9Session : Session :=
  { id := "S", title := "s", messages := [fbMsg], agentId := "g", lastModified := 4 }

/-- Witness for C9: with a selected session whose messages do not contain
the requested id, all three operations return the state unchanged. -/
theorem mutation_noop_on_missing_target_witness :
    handleEditMessage 7 (some "S") "missing" "new" [c9Session] = ([c9Session], none) ∧
    handleDeleteMessage 7 (some "S") "missing" [c9Session] = [c9Session] ∧
    handleFeedback (some "S") "missing" Feedback.up [c9Session] = [c9Session] :=
  mutation_noop_on_missing_target 7 (some "S") "missing" "new" Feedback.up [c9Session]
    (Or.inr ⟨"S", rfl, by decide⟩)

/-! ### C10: the registry slot is only written when non-empty -/

/-- C10: the registry is persisted only while non-empty — saving an empty
list leaves the slot untouched while saving a non-empty list overwrites
it — so after deleteAgent removes the last remaining agent the slot still
holds the previous list, and a reload restores that list instead of the
empty registry. -/
theorem registry_persist_nonempty_only (agents l : List AgentConfig) (id : String)
    (slot : Option (List AgentConfig)) (defaults : List AgentConfig)
    (hl : l ≠ []) (hdel : deleteAgent id agents = []) :
    persistAgents [] slot = slot ∧
    persistAgents l slot = some l ∧
    persistAgents (deleteAgent id agents) (some agents) = some agents ∧
    loadAgents (persistAgents (deleteAgent id agents) (some agents)) defaults =
      agents := by
  refine ⟨rfl, ?_, ?_, ?_⟩
  · unfold persistAgents
    rw [if_pos (List.length_pos.mpr hl)]
  · rw [hdel]
    rfl
  · rw [hdel]
    rfl

/-- The last remaining agent of the registry. -/
def c10agent : AgentConfig :=
  { id := "solo", name := "Solo", description := "", systemInstruction := "s"
  , model := "m", currentVersion := 1, promptVersions := [], draftConfig := none }

/-- Witness for C10: deleting the only agent leaves the slot holding the
previous one-agent list, which a reload restores. -/
theorem registry_persist_nonempty_only_witness :
    persistAgents [] (some [c10agent]) = some [c10agent] ∧
    persistAgents [c10agent] (some [c10agent]) = some [c10agent] ∧
    persistAgents (deleteAgent "solo" [c10agent]) (some [c10agent]) =
      some [c10agent] ∧
    loadAgents (persistAgents (deleteAgent "solo" [c10agent]) (some [c10agent]))
      [] = [c10agent] :=
  registry_persist_nonempty_only [c10agent] [c10agent] "solo" (some [c10agent]) []
    (by decide) (by decide)

end AgnoApp
